import Mathlib

/-!
Verification of the GameSessionLogger persistence and lifecycle engine.

The development shallowly embeds the TypeScript engine:
* `src/models/Event.ts` and `src/models/Session.ts` (validation helpers),
* `src/models/SessionType.ts` (enum guards and normalization),
* the event store composable (`useEventStore`: createEvent, closeEvent,
  deleteEvent, deleteAllEvents, loadEvents),
* the session store composable (`useSessionStore`: deleteSession and friends),
* `src/utils/duration.ts` (formatDuration),
* the versioned schema store (`src/services/db.ts`).

Modelling conventions:
* The Dexie tables are embedded as Lean lists of records; single-record Dexie
  operations (`add`, `update`, `delete`, `where(..).delete()`) become pure list
  transformations.  `update` on a missing key is a no-op, as in Dexie.
* ISO 8601 timestamp strings produced by `new Date().toISOString()` are
  represented by their parsed instant (`Nat`, milliseconds since the epoch):
  `Date.parse` is order-isomorphic on such strings, and the engine only ever
  compares and subtracts parsed values.  `Date.parse(e) - Date.parse(t)`
  therefore becomes integer subtraction of the two instants.
* `crypto.randomUUID()` is modelled by passing the fresh identifier as an
  explicit argument.
* Asynchronous storage failure is modelled by an explicit success flag on a
  primitive write: a rejected single-record write leaves the table unchanged
  (per-operation atomicity of the storage engine), while writes that already
  committed earlier in the same composable call stay committed, because the
  source wraps no multi-record transaction around them.
-/

/-! ## Data model (src/models/Event.ts, src/models/Session.ts, SessionType.ts) -/

/-- `EVENT_TAGS` from src/models/Event.ts. -/
def EVENT_TAGS : List String :=
  ["Combat", "Roleplay", "Downtime", "Scoring", "Meal", "Other"]

/-- `SESSION_TYPES` from src/models/SessionType.ts. -/
def SESSION_TYPES : List String := ["RPG", "Boardgame"]

/-- An Event record as stored in the `events` table.  `timestamp` and
`endTimestamp` hold the parsed instant of the ISO string; `endTimestamp = none`
models the absent field (an open event). -/
structure Event where
  id : String
  sessionId : String
  tag : String
  timestamp : Nat
  endTimestamp : Option Nat
  description : String
  deriving DecidableEq, Repr

/-- A Session record as stored in the `sessions` table (current schema:
`type` always present). -/
structure Session where
  id : String
  name : String
  type : String
  createdAt : Nat
  updatedAt : Nat
  deriving DecidableEq, Repr

/-- A Session record as it may sit in a store written by an older schema
generation: the `type` field is optional (`none` models both a missing field
and a non-string value, which `typeof value === 'string'` rejects). -/
structure RawSession where
  id : String
  name : String
  type : Option String
  createdAt : Nat
  updatedAt : Nat
  deriving DecidableEq, Repr

/-- `isValidEventTag` from src/models/Event.ts: membership in `EVENT_TAGS`. -/
def isValidEventTag (tag : String) : Bool :=
  EVENT_TAGS.contains tag

/-- `validateEventDescription` from src/models/Event.ts. -/
def validateEventDescription (description : String) : Option String :=
  if description.length > 500 then some "Description must be 500 characters or less"
  else none

/-- Executable model of JavaScript `String.prototype.trim`: drop leading and
trailing whitespace characters.  (Lean's own `String.trim` is identical in
meaning but is defined by well-founded recursion over byte positions and does
not reduce inside the kernel, so the embedding uses this list-based form.) -/
def trimString (s : String) : String :=
  ⟨(((s.data.dropWhile Char.isWhitespace).reverse).dropWhile Char.isWhitespace).reverse⟩

/-- `validateSessionName` from src/models/Session.ts. -/
def validateSessionName (name : String) : Option String :=
  let trimmed := trimString name
  if trimmed.length = 0 then some "Session name cannot be empty"
  else if trimmed.length > 100 then some "Session name must be 100 characters or less"
  else none

/-- The string-argument core of `isValidSessionType` from
src/models/SessionType.ts (`SESSION_TYPES.includes(value)`). -/
def isValidSessionTypeStr (s : String) : Bool :=
  SESSION_TYPES.contains s

/-- `isValidSessionType` from src/models/SessionType.ts:
`typeof value === 'string' && SESSION_TYPES.includes(value)`; a non-string or
missing value is modelled by `none`. -/
def isValidSessionType (value : Option String) : Bool :=
  match value with
  | some s => isValidSessionTypeStr s
  | none => false

/-- `normalizeSessionType` from src/models/SessionType.ts:
`isValidSessionType(value) ? value : 'RPG'`. -/
def normalizeSessionType (value : Option String) : String :=
  match value with
  | some s => if isValidSessionTypeStr s then s else "RPG"
  | none => "RPG"

/-! ## Duration formatting (src/utils/duration.ts) -/

/-- `formatDuration(startIso, endIso)` from src/utils/duration.ts, applied to
the parsed instants: `ms = Date.parse(endIso) - Date.parse(startIso)`,
`totalMinutes = Math.floor(ms / 60000)` (floor division, `Int.fdiv`),
`hours = Math.floor(totalMinutes / 60)`, `minutes = totalMinutes % 60`
(JS remainder truncates toward zero, `Int.tmod`). -/
def formatDuration (startMs endMs : Int) : String :=
  let ms := endMs - startMs
  let totalMinutes := Int.fdiv ms 60000
  let hours := Int.fdiv totalMinutes 60
  let minutes := Int.tmod totalMinutes 60
  if totalMinutes < 1 then "< 1 min"
  else if hours = 0 then toString totalMinutes ++ " min"
  else if minutes = 0 then toString hours ++ "h"
  else toString hours ++ "h " ++ toString minutes ++ "min"

example : formatDuration 0 59999 = "< 1 min" := by decide
example : formatDuration 0 60000 = "1 min" := by decide
example : formatDuration 0 (59 * 60000 + 59999) = "59 min" := by decide
example : formatDuration 0 3600000 = "1h" := by decide
example : formatDuration 0 (3600000 + 20 * 60000) = "1h 20min" := by decide
example : formatDuration 1000 0 = "< 1 min" := by decide

/-! ## The persistent store -/

/-- The two Dexie tables of `GameSessionLoggerDB` plus the externally persisted
active-session pointer (`localStorage['activeSessionId']`). -/
structure DBState where
  sessions : List Session
  events : List Event
  activeSessionId : Option String
  deriving DecidableEq, Repr

/-! ## Event store operations (useEventStore composable) -/

/-- `db.events.update(eventId, { endTimestamp })`: sets the `endTimestamp`
field of the event with the given primary key; a no-op when no event has that
key, as in Dexie. -/
def updateEventEnd (events : List Event) (eventId : String) (now : Nat) : List Event :=
  events.map fun e => if e.id = eventId then { e with endTimestamp := some now } else e

/-- `db.events.where('sessionId').equals(sessionId).filter(e => !e.endTimestamp).toArray()`:
the open events of a session. -/
def openEventsOf (events : List Event) (sessionId : String) : List Event :=
  (events.filter fun e => e.sessionId = sessionId).filter fun e => e.endTimestamp.isNone

/-- `createEvent(sessionId, tag, description)` from the event store composable:
validates the inputs, auto-closes every open event of the session (one
`db.events.update` per open event, all stamped with the new event's `now`),
then inserts the new event with no `endTimestamp`.  `newId` stands for
`crypto.randomUUID()` and `now` for `new Date().toISOString()`. -/
def createEvent (st : DBState) (sessionId tag description : String)
    (newId : String) (now : Nat) : Except String (DBState × Event) :=
  if sessionId = "" then .error "No active session"
  else if ¬ isValidEventTag tag then .error "Invalid event tag"
  else match validateEventDescription description with
  | some msg => .error msg
  | none =>
    let openEvents := openEventsOf st.events sessionId
    let closed := openEvents.foldl (fun acc oe => updateEventEnd acc oe.id now) st.events
    let event : Event :=
      { id := newId, sessionId := sessionId, tag := tag, timestamp := now,
        endTimestamp := none, description := trimString description }
    .ok ({ st with events := closed ++ [event] }, event)

/-- `closeEvent(eventId)` from the event store composable:
`db.events.update(eventId, { endTimestamp })` with the current instant. -/
def closeEvent (st : DBState) (eventId : String) (now : Nat) : DBState :=
  { st with events := updateEventEnd st.events eventId now }

/-- `deleteEvent(eventId)`: `db.events.delete(eventId)`. -/
def deleteEvent (st : DBState) (eventId : String) : DBState :=
  { st with events := st.events.filter fun e => ¬ e.id = eventId }

/-- `deleteAllEvents(sessionId)`: `db.events.where('sessionId').equals(sessionId).delete()`. -/
def deleteAllEvents (st : DBState) (sessionId : String) : DBState :=
  { st with events := st.events.filter fun e => ¬ e.sessionId = sessionId }

/-! ## Session store operations (useSessionStore composable) -/

/-- First await of `deleteSession`: the cascading
`db.events.where('sessionId').equals(sessionId).delete()`. -/
def deleteSessionEventsStep (st : DBState) (sessionId : String) : DBState :=
  { st with events := st.events.filter fun e => ¬ e.sessionId = sessionId }

/-- Second await of `deleteSession`: `db.sessions.delete(sessionId)`. -/
def deleteSessionRecordStep (st : DBState) (sessionId : String) : DBState :=
  { st with sessions := st.sessions.filter fun s => ¬ s.id = sessionId }

/-- `deleteSession(sessionId)` from the session store composable: cascade
deletes the session's events, then the session record, then clears the active
pointer if it referenced the deleted session. -/
def deleteSession (st : DBState) (sessionId : String) : DBState :=
  let st1 := deleteSessionEventsStep st sessionId
  let st2 := deleteSessionRecordStep st1 sessionId
  if st2.activeSessionId = some sessionId then { st2 with activeSessionId := none }
  else st2

/-! ## Counting open events -/

/-- The Boolean test for an open event of a given session (`sessionId` matches
and `endTimestamp` is absent). -/
def isOpenIn (sessionId : String) (e : Event) : Bool :=
  e.sessionId = sessionId && e.endTimestamp.isNone

/-- Number of open events of a session in a store state. -/
def openCount (st : DBState) (sessionId : String) : Nat :=
  st.events.countP (isOpenIn sessionId)

/-- The engine invariant: at most one open event per session. -/
def AtMostOneOpen (st : DBState) : Prop :=
  ∀ sessionId, openCount st sessionId ≤ 1

/-! ## The auto-close loop, characterized -/

/-- Pointwise effect of the auto-close loop: an event whose id occurs in `ids`
gets its `endTimestamp` set to `now`, any other event is untouched. -/
def closeIfMem (ids : List String) (now : Nat) (e : Event) : Event :=
  if e.id ∈ ids then { e with endTimestamp := some now } else e

lemma closeIfMem_of_not_mem (ids : List String) (now : Nat) (e : Event)
    (h : e.id ∉ ids) : closeIfMem ids now e = e := by
  simp [closeIfMem, h]

/-- The `for (const openEvent of openEvents) await db.events.update(...)` loop
equals a single map closing every event whose id occurs among the iterated
events' ids. -/
lemma foldl_updateEventEnd_eq_map (os : List Event) (evs : List Event) (now : Nat) :
    os.foldl (fun acc oe => updateEventEnd acc oe.id now) evs
      = evs.map (closeIfMem (os.map Event.id) now) := by
  induction os generalizing evs with
  | nil =>
    simp only [List.foldl_nil, List.map_nil]
    conv_lhs => rw [← List.map_id evs]
    apply List.map_congr_left
    intro e _
    simp [closeIfMem]
  | cons o os ih =>
    simp only [List.foldl_cons, List.map_cons]
    rw [ih, updateEventEnd, List.map_map]
    apply List.map_congr_left
    intro e _
    by_cases h1 : e.id = o.id
    · by_cases h2 : e.id ∈ os.map Event.id <;>
        simp [closeIfMem, Function.comp, h1, h2]
    · by_cases h2 : e.id ∈ os.map Event.id <;>
        simp [closeIfMem, Function.comp, h1, h2]

lemma isOpenIn_closeIfMem_false (sid : String) (ids : List String) (now : Nat)
    (e : Event) (hmem : e.id ∈ ids) : isOpenIn sid (closeIfMem ids now e) = false := by
  simp [closeIfMem, hmem, isOpenIn]

/-- After the auto-close loop of `createEvent`, the target session has no open
event left at all. -/
lemma countP_open_after_close_eq_zero (evs : List Event) (sid : String) (now : Nat) :
    (evs.map (closeIfMem ((openEventsOf evs sid).map Event.id) now)).countP (isOpenIn sid)
      = 0 := by
  rw [List.countP_map, List.countP_eq_zero]
  intro e he hpe
  by_cases hmem : e.id ∈ (openEventsOf evs sid).map Event.id
  · rw [Function.comp_apply, isOpenIn_closeIfMem_false _ _ _ _ hmem] at hpe
    cases hpe
  · rw [Function.comp_apply, closeIfMem_of_not_mem _ _ _ hmem] at hpe
    apply hmem
    apply List.mem_map_of_mem Event.id
    simp only [isOpenIn, Bool.and_eq_true, decide_eq_true_eq] at hpe
    simp [openEventsOf, List.mem_filter, he, hpe.1, hpe.2]

/-- The auto-close loop never increases the number of open events of any
session. -/
lemma countP_open_map_close_le (evs : List Event) (ids : List String) (now : Nat)
    (sid : String) :
    (evs.map (closeIfMem ids now)).countP (isOpenIn sid) ≤ evs.countP (isOpenIn sid) := by
  rw [List.countP_map]
  apply List.countP_mono_left
  intro e _ hpe
  by_cases hmem : e.id ∈ ids
  · rw [Function.comp_apply, isOpenIn_closeIfMem_false _ _ _ _ hmem] at hpe
    cases hpe
  · rwa [Function.comp_apply, closeIfMem_of_not_mem _ _ _ hmem] at hpe

/-- Explicit form of `createEvent` on the success path. -/
lemma createEvent_eq_ok (st : DBState) (sid tag desc newId : String) (now : Nat)
    (hsid : ¬ sid = "") (htag : isValidEventTag tag = true)
    (hdesc : validateEventDescription desc = none) :
    createEvent st sid tag desc newId now =
      .ok ({ st with events :=
               st.events.map (closeIfMem ((openEventsOf st.events sid).map Event.id) now)
                 ++ [{ id := newId, sessionId := sid, tag := tag, timestamp := now,
                       endTimestamp := none, description := trimString desc }] },
           { id := newId, sessionId := sid, tag := tag, timestamp := now,
             endTimestamp := none, description := trimString desc }) := by
  unfold createEvent
  rw [if_neg hsid, if_neg (by simp [htag]), hdesc]
  simp only [foldl_updateEventEnd_eq_map]

/-- Inversion of `createEvent` on the success path: the guards hold and the
resulting state and event have the explicit closed-then-appended form. -/
lemma createEvent_ok_elim {st : DBState} {sid tag desc newId : String} {now : Nat}
    {st' : DBState} {ev : Event}
    (h : createEvent st sid tag desc newId now = .ok (st', ev)) :
    ¬ sid = "" ∧ isValidEventTag tag = true ∧ validateEventDescription desc = none ∧
      ev = { id := newId, sessionId := sid, tag := tag, timestamp := now,
             endTimestamp := none, description := trimString desc } ∧
      st' = { st with events :=
                st.events.map (closeIfMem ((openEventsOf st.events sid).map Event.id) now)
                  ++ [ev] } := by
  by_cases h1 : sid = ""
  · rw [createEvent, if_pos h1] at h; cases h
  by_cases h2 : isValidEventTag tag = true
  · by_cases h3 : validateEventDescription desc = none
    · rw [createEvent_eq_ok st sid tag desc newId now h1 h2 h3] at h
      rw [Except.ok.injEq, Prod.mk.injEq] at h
      exact ⟨h1, h2, h3, h.2.symm, by rw [← h.1, ← h.2]⟩
    · obtain ⟨msg, hmsg⟩ : ∃ msg, validateEventDescription desc = some msg := by
        cases hv : validateEventDescription desc with
        | none => exact absurd hv h3
        | some m => exact ⟨m, rfl⟩
      rw [createEvent, if_neg h1, if_neg (by simp [h2]), hmsg] at h
      cases h
  · rw [createEvent, if_neg h1, if_pos (by simp [h2])] at h
    cases h

/-! ## Open-count facts about each engine operation -/

lemma countP_filter_le (l : List Event) (p q : Event → Bool) :
    (l.filter q).countP p ≤ l.countP p := by
  rw [List.countP_filter]
  apply List.countP_mono_left
  intro e _ h
  simp only [Bool.and_eq_true] at h
  exact h.1

lemma openCount_closeEvent_le (st : DBState) (eventId : String) (now : Nat)
    (sid : String) : openCount (closeEvent st eventId now) sid ≤ openCount st sid := by
  unfold openCount closeEvent updateEventEnd
  rw [List.countP_map]
  apply List.countP_mono_left
  intro e _ hpe
  by_cases h : e.id = eventId
  · simp [Function.comp, h, isOpenIn] at hpe
  · simpa [Function.comp, h] using hpe

lemma openCount_deleteEvent_le (st : DBState) (eventId : String) (sid : String) :
    openCount (deleteEvent st eventId) sid ≤ openCount st sid :=
  countP_filter_le st.events _ _

lemma openCount_deleteAllEvents_le (st : DBState) (sid sid' : String) :
    openCount (deleteAllEvents st sid) sid' ≤ openCount st sid' :=
  countP_filter_le st.events _ _

lemma deleteSession_events (st : DBState) (sid : String) :
    (deleteSession st sid).events = st.events.filter fun e => ¬ e.sessionId = sid := by
  simp only [deleteSession, deleteSessionRecordStep, deleteSessionEventsStep]
  split <;> rfl

lemma deleteSession_sessions (st : DBState) (sid : String) :
    (deleteSession st sid).sessions = st.sessions.filter fun s => ¬ s.id = sid := by
  simp only [deleteSession, deleteSessionRecordStep, deleteSessionEventsStep]
  split <;> rfl

lemma openCount_deleteSession_le (st : DBState) (sid sid' : String) :
    openCount (deleteSession st sid) sid' ≤ openCount st sid' := by
  unfold openCount
  rw [deleteSession_events]
  exact countP_filter_le st.events _ _

/-- A successful `createEvent` leaves the target session with exactly one open
event, whatever the session looked like before. -/
lemma openCount_createEvent_target {st st' : DBState} {sid tag desc newId : String}
    {now : Nat} {ev : Event}
    (h : createEvent st sid tag desc newId now = .ok (st', ev)) :
    openCount st' sid = 1 := by
  obtain ⟨_, _, _, hev, hst⟩ := createEvent_ok_elim h
  subst hst
  unfold openCount
  rw [List.countP_append, countP_open_after_close_eq_zero]
  subst hev
  simp [isOpenIn]

/-- A successful `createEvent` never increases the number of open events of any
other session. -/
lemma openCount_createEvent_other {st st' : DBState} {sid tag desc newId : String}
    {now : Nat} {ev : Event}
    (h : createEvent st sid tag desc newId now = .ok (st', ev))
    (sid' : String) (hne : ¬ sid' = sid) :
    openCount st' sid' ≤ openCount st sid' := by
  obtain ⟨_, _, _, hev, hst⟩ := createEvent_ok_elim h
  subst hst
  subst hev
  unfold openCount
  rw [List.countP_append]
  have h5 : (List.countP (isOpenIn sid')
      [({ id := newId, sessionId := sid, tag := tag, timestamp := now,
           endTimestamp := none, description := trimString desc } : Event)]) = 0 := by
    have hne' : ¬ sid = sid' := fun hh => hne hh.symm
    simp [isOpenIn, hne']
  rw [h5, Nat.add_zero]
  exact countP_open_map_close_le st.events _ now sid'

lemma mem_of_mem_openEventsOf {evs : List Event} {sid : String} {e : Event}
    (h : e ∈ openEventsOf evs sid) : e ∈ evs :=
  (List.mem_filter.mp (List.mem_filter.mp h).1).1

/-- C1: for a session holding exactly one open event, `createEvent` closes that
event with the new event's own `timestamp` as `endTimestamp`, and the new event
itself is created open. -/
theorem createEvent_auto_closes_single_open
    (st : DBState) (sid tag desc newId : String) (now : Nat) (e : Event)
    (hsid : ¬ sid = "") (htag : isValidEventTag tag = true)
    (hdesc : validateEventDescription desc = none)
    (hopen : openEventsOf st.events sid = [e])
    (hfresh : ¬ newId = e.id) :
    ∃ st' ev, createEvent st sid tag desc newId now = .ok (st', ev) ∧
      ev.endTimestamp = none ∧ ev.timestamp = now ∧
      { e with endTimestamp := some now } ∈ st'.events ∧
      (∀ e' ∈ st'.events, e'.id = e.id → e'.endTimestamp = some now) := by
  refine ⟨_, _, createEvent_eq_ok st sid tag desc newId now hsid htag hdesc, rfl, rfl, ?_, ?_⟩
  · have he : e ∈ openEventsOf st.events sid := by
      rw [hopen]; exact List.mem_cons_self e []
    apply List.mem_append_left
    have hc : closeIfMem ((openEventsOf st.events sid).map Event.id) now e
        = { e with endTimestamp := some now } := by
      rw [closeIfMem, if_pos]
      rw [hopen]; simp
    rw [← hc]
    exact List.mem_map_of_mem _ (mem_of_mem_openEventsOf he)
  · intro e' he' hid
    rcases List.mem_append.mp he' with hmap | hsing
    · obtain ⟨x, hx, hxe⟩ := List.mem_map.mp hmap
      by_cases hmem : x.id ∈ (openEventsOf st.events sid).map Event.id
      · rw [← hxe]; simp [closeIfMem, hmem]
      · rw [closeIfMem_of_not_mem _ _ _ hmem] at hxe
        subst hxe
        rw [hopen] at hmem
        simp at hmem
        exact absurd hid hmem
    · simp only [List.mem_singleton] at hsing
      subst hsing
      simp only at hid
      exact absurd hid hfresh

/-- C2: every engine operation preserves the at-most-one-open-event-per-session
invariant, each non-creating operation never increases any session's open
count, and a successful `createEvent` re-establishes the invariant even from a
corrupted state with several open events in the target session, leaving that
session with exactly one open event. -/
theorem engine_preserves_at_most_one_open :
    (∀ st sid tag desc newId now st' ev,
        createEvent st sid tag desc newId now = .ok (st', ev) →
          openCount st' sid = 1 ∧
          ∀ sid', ¬ sid' = sid → openCount st' sid' ≤ openCount st sid') ∧
    (∀ st eventId now sid', openCount (closeEvent st eventId now) sid' ≤ openCount st sid') ∧
    (∀ st eventId sid', openCount (deleteEvent st eventId) sid' ≤ openCount st sid') ∧
    (∀ st sid sid', openCount (deleteAllEvents st sid) sid' ≤ openCount st sid') ∧
    (∀ st sid sid', openCount (deleteSession st sid) sid' ≤ openCount st sid') ∧
    (∀ st sid tag desc newId now st' ev,
        createEvent st sid tag desc newId now = .ok (st', ev) →
          (∀ sid', ¬ sid' = sid → openCount st sid' ≤ 1) → AtMostOneOpen st') ∧
    (∀ st eventId now, AtMostOneOpen st → AtMostOneOpen (closeEvent st eventId now)) ∧
    (∀ st eventId, AtMostOneOpen st → AtMostOneOpen (deleteEvent st eventId)) ∧
    (∀ st sid, AtMostOneOpen st → AtMostOneOpen (deleteAllEvents st sid)) ∧
    (∀ st sid, AtMostOneOpen st → AtMostOneOpen (deleteSession st sid)) := by
  refine ⟨?_, ?_, ?_, ?_, ?_, ?_, ?_, ?_, ?_, ?_⟩
  · intro st sid tag desc newId now st' ev h
    exact ⟨openCount_createEvent_target h, fun sid' hne => openCount_createEvent_other h sid' hne⟩
  · exact openCount_closeEvent_le
  · exact openCount_deleteEvent_le
  · exact openCount_deleteAllEvents_le
  · exact openCount_deleteSession_le
  · intro st sid tag desc newId now st' ev h hother sid'
    by_cases hs : sid' = sid
    · subst hs
      rw [openCount_createEvent_target h]
    · exact le_trans (openCount_createEvent_other h sid' hs) (hother sid' hs)
  · intro st eventId now hinv sid'
    exact le_trans (openCount_closeEvent_le st eventId now sid') (hinv sid')
  · intro st eventId hinv sid'
    exact le_trans (openCount_deleteEvent_le st eventId sid') (hinv sid')
  · intro st sid hinv sid'
    exact le_trans (openCount_deleteAllEvents_le st sid sid') (hinv sid')
  · intro st sid hinv sid'
    exact le_trans (openCount_deleteSession_le st sid sid') (hinv sid')

/-! ## Concrete fixtures for the evaluation witnesses -/

instance {e a : Type} [DecidableEq e] [DecidableEq a] : DecidableEq (Except e a) := fun x y =>
  match x, y with
  | .error u, .error v =>
    if h : u = v then .isTrue (by rw [h]) else .isFalse (by intro hh; cases hh; exact h rfl)
  | .error _, .ok _ => .isFalse (by intro hh; cases hh)
  | .ok _, .error _ => .isFalse (by intro hh; cases hh)
  | .ok u, .ok v =>
    if h : u = v then .isTrue (by rw [h]) else .isFalse (by intro hh; cases hh; exact h rfl)

def exOpenEvent : Event :=
  { id := "e1", sessionId := "s1", tag := "Combat", timestamp := 10,
    endTimestamp := none, description := "fight" }

def exSessionS1 : Session :=
  { id := "s1", name := "Dragon Heist", type := "RPG", createdAt := 1, updatedAt := 1 }

def exState1 : DBState :=
  { sessions := [exSessionS1], events := [exOpenEvent], activeSessionId := some "s1" }

/-- A corrupted state: two open events in session `s1`. -/
def exCorrupt : DBState :=
  { sessions := [exSessionS1],
    events := [exOpenEvent,
      { id := "e2", sessionId := "s1", tag := "Roleplay", timestamp := 12,
        endTimestamp := none, description := "" }],
    activeSessionId := some "s1" }

/-- The state produced by `createEvent exCorrupt "s1" "Other" "" "e9" 30`. -/
def exCorruptHealed : DBState :=
  { sessions := [exSessionS1],
    events := [{ id := "e1", sessionId := "s1", tag := "Combat", timestamp := 10,
                 endTimestamp := some 30, description := "fight" },
               { id := "e2", sessionId := "s1", tag := "Roleplay", timestamp := 12,
                 endTimestamp := some 30, description := "" },
               { id := "e9", sessionId := "s1", tag := "Other", timestamp := 30,
                 endTimestamp := none, description := "" }],
    activeSessionId := some "s1" }

theorem createEvent_auto_closes_single_open_witness :
    ∃ st' ev, createEvent exState1 "s1" "Roleplay" "" "e7" 20 = .ok (st', ev) ∧
      ev.endTimestamp = none ∧ ev.timestamp = 20 ∧
      { exOpenEvent with endTimestamp := some 20 } ∈ st'.events ∧
      (∀ e' ∈ st'.events, e'.id = exOpenEvent.id → e'.endTimestamp = some 20) :=
  createEvent_auto_closes_single_open exState1 "s1" "Roleplay" "" "e7" 20 exOpenEvent
    (by decide) (by decide) (by decide) (by decide) (by decide)

theorem engine_preserves_at_most_one_open_witness :
    openCount exCorruptHealed "s1" = 1 ∧
      ∀ sid', ¬ sid' = "s1" → openCount exCorruptHealed sid' ≤ openCount exCorrupt sid' :=
  engine_preserves_at_most_one_open.1 exCorrupt "s1" "Other" "" "e9" 30 exCorruptHealed
    { id := "e9", sessionId := "s1", tag := "Other", timestamp := 30,
      endTimestamp := none, description := "" }
    (by decide)

/-! ## C6: cascading session deletion -/

/-- C6: `deleteSession` deletes the session's events first and the session
record second; afterwards a query for events of that session is empty and the
session is gone, and referential integrity (every event references an existing
session) holds at the intermediate state and at the final state whenever it
held before. -/
theorem deleteSession_cascades (st : DBState) (sid : String)
    (hri : ∀ e ∈ st.events, ∃ s ∈ st.sessions, s.id = e.sessionId) :
    ((deleteSession st sid).events.filter fun e => e.sessionId = sid) = [] ∧
    (∀ s ∈ (deleteSession st sid).sessions, ¬ s.id = sid) ∧
    (∀ e ∈ (deleteSessionEventsStep st sid).events,
        ∃ s ∈ (deleteSessionEventsStep st sid).sessions, s.id = e.sessionId) ∧
    (∀ e ∈ (deleteSession st sid).events,
        ∃ s ∈ (deleteSession st sid).sessions, s.id = e.sessionId) := by
  refine ⟨?_, ?_, ?_, ?_⟩
  · rw [deleteSession_events, List.filter_filter]
    apply List.filter_eq_nil_iff.mpr
    intro e _
    simp
  · intro s hs
    rw [deleteSession_sessions] at hs
    exact of_decide_eq_true (List.mem_filter.mp hs).2
  · intro e he
    obtain ⟨he', hne⟩ := List.mem_filter.mp he
    obtain ⟨s, hsmem, hsid⟩ := hri e he'
    exact ⟨s, hsmem, hsid⟩
  · intro e he
    rw [deleteSession_events] at he
    obtain ⟨he', hne⟩ := List.mem_filter.mp he
    obtain ⟨s, hsmem, hsid⟩ := hri e he'
    refine ⟨s, ?_, hsid⟩
    rw [deleteSession_sessions]
    apply List.mem_filter.mpr
    refine ⟨hsmem, ?_⟩
    simp only [decide_eq_true_eq]
    intro hsid'
    have : e.sessionId = sid := by rw [← hsid, hsid']
    exact (of_decide_eq_true hne) this

theorem deleteSession_cascades_witness :
    ((deleteSession exState1 "s1").events.filter fun e => e.sessionId = "s1") = [] ∧
    (∀ s ∈ (deleteSession exState1 "s1").sessions, ¬ s.id = "s1") ∧
    (∀ e ∈ (deleteSessionEventsStep exState1 "s1").events,
        ∃ s ∈ (deleteSessionEventsStep exState1 "s1").sessions, s.id = e.sessionId) ∧
    (∀ e ∈ (deleteSession exState1 "s1").events,
        ∃ s ∈ (deleteSession exState1 "s1").sessions, s.id = e.sessionId) :=
  deleteSession_cascades exState1 "s1" (by decide)

/-! ## C8: closing an event is an unconditional last-write-wins update -/

/-- C8: `closeEvent` unconditionally sets the target event's `endTimestamp` to
the current instant — also when the event was already closed (last-write-wins),
it never rejects (it is a total function that removes no event), and no event
with the target id is left open afterwards, so a closed event never returns to
the open state. -/
theorem closeEvent_last_write_wins (st : DBState) (eventId : String) (now : Nat) :
    (∀ e ∈ st.events, e.id = eventId →
        { e with endTimestamp := some now } ∈ (closeEvent st eventId now).events) ∧
    ((closeEvent st eventId now).events.length = st.events.length) ∧
    (∀ e' ∈ (closeEvent st eventId now).events, e'.id = eventId →
        e'.endTimestamp = some now) := by
  refine ⟨?_, ?_, ?_⟩
  · intro e he hid
    have : ({ e with endTimestamp := some now } : Event)
        = (fun e => if e.id = eventId then { e with endTimestamp := some now } else e) e := by
      simp [hid]
    rw [this]
    exact List.mem_map_of_mem _ he
  · exact List.length_map st.events _
  · intro e' he' hid
    obtain ⟨x, hx, hxe⟩ := List.mem_map.mp he'
    by_cases h : x.id = eventId
    · rw [if_pos h] at hxe
      rw [← hxe]
    · rw [if_neg h] at hxe
      subst hxe
      exact absurd hid h

/-- A state with one already-closed event, for the `closeEvent` witness. -/
def exStateClosed : DBState :=
  { sessions := [exSessionS1],
    events := [{ id := "c1", sessionId := "s1", tag := "Scoring", timestamp := 10,
                 endTimestamp := some 15, description := "" }],
    activeSessionId := none }

theorem closeEvent_last_write_wins_witness :
    (∀ e ∈ exStateClosed.events, e.id = "c1" →
        { e with endTimestamp := some 99 } ∈ (closeEvent exStateClosed "c1" 99).events) ∧
    ((closeEvent exStateClosed "c1" 99).events.length = exStateClosed.events.length) ∧
    (∀ e' ∈ (closeEvent exStateClosed "c1" 99).events, e'.id = "c1" →
        e'.endTimestamp = some 99) :=
  closeEvent_last_write_wins exStateClosed "c1" 99

/-! ## C9/C10: durations of closed events and their formatting -/

/-- Clock consistency of a store state: every stored instant is at most
`clock`, and a closed event ends no earlier than it starts.  Every state the
engine produces satisfies this for the clock value of its last operation. -/
def TimeConsistent (st : DBState) (clock : Nat) : Prop :=
  ∀ e ∈ st.events, e.timestamp ≤ clock ∧
    ∀ t, e.endTimestamp = some t → e.timestamp ≤ t ∧ t ≤ clock

lemma tc_of_sublist {st st' : DBState} {clock : Nat}
    (h : TimeConsistent st clock) (hsub : ∀ e ∈ st'.events, e ∈ st.events) :
    TimeConsistent st' clock := fun e he => h e (hsub e he)

lemma tc_createEvent {st : DBState} {clock : Nat} {sid tag desc newId : String}
    {now : Nat} {st' : DBState} {ev : Event}
    (h : TimeConsistent st clock) (hc : clock ≤ now)
    (hok : createEvent st sid tag desc newId now = .ok (st', ev)) :
    TimeConsistent st' now := by
  obtain ⟨_, _, _, hev, hst⟩ := createEvent_ok_elim hok
  subst hst
  intro e he
  rcases List.mem_append.mp he with hmap | hsing
  · obtain ⟨x, hx, hxe⟩ := List.mem_map.mp hmap
    obtain ⟨hx1, hx2⟩ := h x hx
    by_cases hmem : x.id ∈ (openEventsOf st.events sid).map Event.id
    · rw [closeIfMem, if_pos hmem] at hxe
      subst hxe
      refine ⟨le_trans hx1 hc, fun t ht => ?_⟩
      simp only [Option.some.injEq] at ht
      subst ht
      exact ⟨le_trans hx1 hc, le_refl now⟩
    · rw [closeIfMem_of_not_mem _ _ _ hmem] at hxe
      subst hxe
      exact ⟨le_trans hx1 hc, fun t ht =>
        ⟨(hx2 t ht).1, le_trans (hx2 t ht).2 hc⟩⟩
  · simp only [List.mem_singleton] at hsing
    subst hsing
    subst hev
    exact ⟨le_refl now, fun t ht => by cases ht⟩

lemma tc_closeEvent {st : DBState} {clock : Nat} (eventId : String) {now : Nat}
    (h : TimeConsistent st clock) (hc : clock ≤ now) :
    TimeConsistent (closeEvent st eventId now) now := by
  intro e he
  obtain ⟨x, hx, hxe⟩ := List.mem_map.mp he
  obtain ⟨hx1, hx2⟩ := h x hx
  by_cases hb : x.id = eventId
  · rw [if_pos hb] at hxe
    subst hxe
    refine ⟨le_trans hx1 hc, fun t ht => ?_⟩
    simp only [Option.some.injEq] at ht
    subst ht
    exact ⟨le_trans hx1 hc, le_refl now⟩
  · rw [if_neg hb] at hxe
    subst hxe
    exact ⟨le_trans hx1 hc, fun t ht =>
      ⟨(hx2 t ht).1, le_trans (hx2 t ht).2 hc⟩⟩

lemma formatDuration_eq_branches (s e : Int) :
    formatDuration s e =
      (if (e - s) / 60000 < 1 then "< 1 min"
       else if ((e - s) / 60000) / 60 = 0 then toString ((e - s) / 60000) ++ " min"
       else if ((e - s) / 60000) % 60 = 0 then toString (((e - s) / 60000) / 60) ++ "h"
       else toString (((e - s) / 60000) / 60) ++ "h "
              ++ toString (((e - s) / 60000) % 60) ++ "min") := by
  simp only [formatDuration]
  rw [Int.fdiv_eq_ediv _ (by omega : (0:Int) ≤ 60000)]
  by_cases h1 : (e - s) / 60000 < 1
  · rw [if_pos h1, if_pos h1]
  · rw [if_neg h1, if_neg h1]
    rw [Int.fdiv_eq_ediv _ (by omega : (0:Int) ≤ 60)]
    rw [Int.tmod_eq_emod (by omega) (by omega)]

/-- C9: on every clock-consistent store state (an invariant established by
every engine operation, as the preservation conjuncts state), each closed
event has a non-negative `durationMs = parse(endTimestamp) - parse(timestamp)`,
and `formatDuration` renders a duration under 60000 ms as `"< 1 min"`,
N = floor(durationMs / 60000) minutes as `"N min"` for 1 ≤ N ≤ 59, and
N ≥ 60 as hours and minutes, collapsing to `"Hh"` when the minute remainder
is zero. -/
theorem closed_durations_nonneg_and_formatted :
    (∀ st clock, TimeConsistent st clock →
        ∀ e ∈ st.events, ∀ t, e.endTimestamp = some t →
          0 ≤ (t : Int) - (e.timestamp : Int)) ∧
    (∀ st clock sid tag desc newId now st' ev, TimeConsistent st clock → clock ≤ now →
        createEvent st sid tag desc newId now = .ok (st', ev) → TimeConsistent st' now) ∧
    (∀ st clock eventId now, TimeConsistent st clock → clock ≤ now →
        TimeConsistent (closeEvent st eventId now) now) ∧
    (∀ st clock eventId, TimeConsistent st clock →
        TimeConsistent (deleteEvent st eventId) clock) ∧
    (∀ st clock sid, TimeConsistent st clock →
        TimeConsistent (deleteAllEvents st sid) clock) ∧
    (∀ st clock sid, TimeConsistent st clock →
        TimeConsistent (deleteSession st sid) clock) ∧
    (∀ s e : Int, 0 ≤ e - s → e - s < 60000 → formatDuration s e = "< 1 min") ∧
    (∀ s e : Int, 1 ≤ Int.fdiv (e - s) 60000 → Int.fdiv (e - s) 60000 ≤ 59 →
        formatDuration s e = toString (Int.fdiv (e - s) 60000) ++ " min") ∧
    (∀ s e : Int, 60 ≤ Int.fdiv (e - s) 60000 →
        (Int.tmod (Int.fdiv (e - s) 60000) 60 = 0 →
            formatDuration s e = toString (Int.fdiv (Int.fdiv (e - s) 60000) 60) ++ "h") ∧
        (¬ Int.tmod (Int.fdiv (e - s) 60000) 60 = 0 →
            formatDuration s e =
              toString (Int.fdiv (Int.fdiv (e - s) 60000) 60) ++ "h "
                ++ toString (Int.tmod (Int.fdiv (e - s) 60000) 60) ++ "min")) := by
  have hediv : ∀ a : Int, Int.fdiv a 60000 = a / 60000 :=
    fun a => Int.fdiv_eq_ediv a (by omega)
  refine ⟨?_, ?_, ?_, ?_, ?_, ?_, ?_, ?_, ?_⟩
  · intro st clock htc e he t ht
    have := ((htc e he).2 t ht).1
    omega
  · intro st clock sid tag desc newId now st' ev htc hc hok
    exact tc_createEvent htc hc hok
  · intro st clock eventId now htc hc
    exact tc_closeEvent eventId htc hc
  · intro st clock eventId htc
    exact tc_of_sublist htc (fun e he => (List.mem_filter.mp he).1)
  · intro st clock sid htc
    exact tc_of_sublist htc (fun e he => (List.mem_filter.mp he).1)
  · intro st clock sid htc
    refine tc_of_sublist htc (fun e he => ?_)
    rw [deleteSession_events] at he
    exact (List.mem_filter.mp he).1
  · intro s e h0 h1
    rw [formatDuration_eq_branches, if_pos (by omega)]
  · intro s e h1 h2
    rw [hediv] at h1 h2
    rw [formatDuration_eq_branches, if_neg (by omega), if_pos (by omega), hediv]
  · intro s e h60
    rw [hediv] at h60
    have hmod : Int.tmod ((e - s) / 60000) 60 = ((e - s) / 60000) % 60 :=
      Int.tmod_eq_emod (by omega) (by omega)
    have hdiv : Int.fdiv ((e - s) / 60000) 60 = ((e - s) / 60000) / 60 :=
      Int.fdiv_eq_ediv _ (by omega)
    constructor
    · intro hm0
      rw [hediv, hmod] at hm0
      rw [formatDuration_eq_branches, if_neg (by omega), if_neg (by omega),
        if_pos hm0, hediv, hdiv]
    · intro hm0
      rw [hediv, hmod] at hm0
      rw [formatDuration_eq_branches, if_neg (by omega), if_neg (by omega),
        if_neg hm0, hediv, hdiv, hmod]

theorem closed_durations_nonneg_and_formatted_witness :
    (0 ≤ (15 : Int) - ((10 : Nat) : Int)) ∧
    formatDuration 10 15000 = "< 1 min" ∧
    formatDuration 0 300000 = toString (Int.fdiv ((300000 : Int) - 0) 60000) ++ " min" ∧
    formatDuration 0 7200000 = toString (Int.fdiv (Int.fdiv ((7200000 : Int) - 0) 60000) 60) ++ "h" ∧
    formatDuration 0 4500000 =
      toString (Int.fdiv (Int.fdiv ((4500000 : Int) - 0) 60000) 60) ++ "h "
        ++ toString (Int.tmod (Int.fdiv ((4500000 : Int) - 0) 60000) 60) ++ "min" := by
  have h := closed_durations_nonneg_and_formatted
  refine ⟨?_, ?_, ?_, ?_, ?_⟩
  · exact h.1 exStateClosed 15
      (by
        intro e he
        simp only [exStateClosed, List.mem_singleton] at he
        subst he
        refine ⟨by decide, fun t ht => ?_⟩
        injection ht with ht'
        subst ht'
        exact ⟨by decide, by decide⟩)
      { id := "c1", sessionId := "s1", tag := "Scoring", timestamp := 10,
        endTimestamp := some 15, description := "" }
      (by decide) 15 rfl
  · exact h.2.2.2.2.2.2.1 10 15000 (by decide) (by decide)
  · exact h.2.2.2.2.2.2.2.1 0 300000 (by decide) (by decide)
  · exact (h.2.2.2.2.2.2.2.2 0 7200000 (by decide)).1 (by decide)
  · exact (h.2.2.2.2.2.2.2.2 0 4500000 (by decide)).2 (by decide)

/-- C10: for any pair of instants whose span is negative (end strictly before
start), `formatDuration` renders `"< 1 min"` — it neither throws nor produces
a negative reading. -/
theorem formatDuration_negative_is_lt_one_min (s e : Int) (h : e < s) :
    formatDuration s e = "< 1 min" := by
  rw [formatDuration_eq_branches, if_pos (by omega)]

theorem formatDuration_negative_is_lt_one_min_witness :
    ((0 : Int) < 5000) ∧ formatDuration 5000 0 = "< 1 min" :=
  ⟨by decide, formatDuration_negative_is_lt_one_min 5000 0 (by decide)⟩

/-! ## C3: schema generation 2 and its upgrade step

The snapshot's `src/services/db.ts` stops at the base generation
(`this.version(1)`), while the rest of the tree (the `Session` model with its
mandatory `type`, `src/models/SessionType.ts`, and the 003-session-typing
design documents) is from after the migration shipped; the current `db.ts` is
missing from the snapshot, so its generation-2 declaration is modelled from
the spec. -/

/-- Base schema generation: `this.version(1)`. -/
def baseGeneration : Nat := 1

/-- Modelled from the spec: the schema generation that added `type` to
Session (`this.version(2)` of `src/services/db.ts`, missing from the
snapshot). -/
def sessionTypeGeneration : Nat := 2

/-- Modelled from the spec: the generation-2 index declaration for the
`sessions` table (`'id, type, createdAt'`), missing from the snapshot's
`db.ts`; it adds a secondary index on `type`. -/
def sessionsIndexesV2 : List String := ["id", "type", "createdAt"]

/-- Modelled from the spec: the generation-2 upgrade step of
`src/services/db.ts` (missing from the snapshot), which "assigns a default
enum member to every session lacking the field": every stored session whose
`type` field is absent gets the default `'RPG'`, every other record is left
untouched. -/
def upgradeV2 (store : List RawSession) : List RawSession :=
  store.map fun s => if s.type = none then { s with type := some "RPG" } else s

/-- C3: the schema store declares generation 2 above the base generation with
a secondary index on `type`, and on every pre-migration store content (written
by the base generation, where the `type` field does not exist) the upgrade
step gives every session a valid type while losing no existing field. -/
theorem upgradeV2_assigns_default_type (store : List RawSession)
    (hpre : ∀ s ∈ store, s.type = none) :
    baseGeneration < sessionTypeGeneration ∧
    "type" ∈ sessionsIndexesV2 ∧
    (∀ s ∈ upgradeV2 store, isValidSessionType s.type = true) ∧
    (upgradeV2 store).map (fun s => (s.id, s.name, s.createdAt, s.updatedAt))
      = store.map (fun s => (s.id, s.name, s.createdAt, s.updatedAt)) := by
  refine ⟨by decide, by decide, ?_, ?_⟩
  · intro s hs
    obtain ⟨x, hx, hxs⟩ := List.mem_map.mp hs
    rw [if_pos (hpre x hx)] at hxs
    subst hxs
    rfl
  · rw [upgradeV2, List.map_map]
    apply List.map_congr_left
    intro s _
    by_cases h : s.type = none <;> simp [h]

theorem upgradeV2_assigns_default_type_witness :
    baseGeneration < sessionTypeGeneration ∧
    "type" ∈ sessionsIndexesV2 ∧
    (∀ s ∈ upgradeV2 [{ id := "s1", name := "Old", type := none,
                        createdAt := 1, updatedAt := 1 }],
        isValidSessionType s.type = true) ∧
    (upgradeV2 [{ id := "s1", name := "Old", type := none,
                  createdAt := 1, updatedAt := 1 }]).map
        (fun s => (s.id, s.name, s.createdAt, s.updatedAt))
      = [({ id := "s1", name := "Old", type := none,
            createdAt := 1, updatedAt := 1 } : RawSession)].map
          (fun s => (s.id, s.name, s.createdAt, s.updatedAt)) :=
  upgradeV2_assigns_default_type
    [{ id := "s1", name := "Old", type := none, createdAt := 1, updatedAt := 1 }]
    (by decide)

/-! ## C4: every session read is normalized

The current `useSessionStore.ts` postdates the snapshot's copy (which is from
before session typing); its read paths are modelled from the spec. -/

/-- Modelled from the spec: how the session lifecycle manager (the reactive
`sessions` collection, `setActiveSession`, `loadSessions` of the current
`useSessionStore.ts`, missing from the snapshot) surfaces a stored Session
record to callers: the stored `type` is passed through `normalizeSessionType`;
all other fields are surfaced unchanged.  The function is total: no input
throws. -/
def surfaceSession (s : RawSession) : Session :=
  { id := s.id, name := s.name, type := normalizeSessionType s.type,
    createdAt := s.createdAt, updatedAt := s.updatedAt }

/-- Modelled from the spec: a read of the whole `sessions` table through the
session lifecycle manager surfaces every record via `surfaceSession`. -/
def readSessions (store : List RawSession) : List Session :=
  store.map surfaceSession

lemma normalizeSessionType_valid (v : Option String) :
    isValidSessionTypeStr (normalizeSessionType v) = true := by
  cases v with
  | none => rfl
  | some s =>
    by_cases h : isValidSessionTypeStr s
    · simp [normalizeSessionType, h]
    · simp only [normalizeSessionType, if_neg h]
      rfl

/-- C4: every Session surfaced by the session lifecycle manager carries a type
inside the known enumeration, and a record persisted with `type: "Unknown"` is
surfaced with type `"RPG"` (and, the read being a total function, no error is
thrown). -/
theorem session_reads_normalized (store : List RawSession) :
    (∀ s ∈ readSessions store, isValidSessionTypeStr s.type = true) ∧
    (∀ raw ∈ store, raw.type = some "Unknown" →
        surfaceSession raw ∈ readSessions store ∧ (surfaceSession raw).type = "RPG") := by
  constructor
  · intro s hs
    obtain ⟨x, _, hxs⟩ := List.mem_map.mp hs
    subst hxs
    exact normalizeSessionType_valid x.type
  · intro raw hraw hunk
    refine ⟨List.mem_map_of_mem _ hraw, ?_⟩
    simp only [surfaceSession, hunk]
    rfl

def exRawStore : List RawSession :=
  [{ id := "s1", name := "A", type := some "Unknown", createdAt := 1, updatedAt := 1 },
   { id := "s2", name := "B", type := none, createdAt := 2, updatedAt := 2 },
   { id := "s3", name := "C", type := some "Boardgame", createdAt := 3, updatedAt := 3 }]

theorem session_reads_normalized_witness :
    surfaceSession { id := "s1", name := "A", type := some "Unknown",
                     createdAt := 1, updatedAt := 1 } ∈ readSessions exRawStore ∧
    (surfaceSession { id := "s1", name := "A", type := some "Unknown",
                      createdAt := 1, updatedAt := 1 }).type = "RPG" :=
  (session_reads_normalized exRawStore).2
    { id := "s1", name := "A", type := some "Unknown", createdAt := 1, updatedAt := 1 }
    (by decide) rfl

/-! ## C5: typed session creation validates both fields -/

/-- Modelled from the spec: `createSession(name, type)` of the current
`useSessionStore.ts` (missing from the snapshot, whose copy predates session
typing): validates `name` with `validateSessionName` and `type` with the
session-type guard, rejects with the validation error when either fails, and
only on success appends the new Session (trimmed name, generated id, creation
timestamps) to the store.  The pair returned is (operation result, resulting
store). -/
def createSession (store : List Session) (name ty newId : String) (now : Nat) :
    Except String Session × List Session :=
  match validateSessionName name with
  | some msg => (.error msg, store)
  | none =>
    if ¬ isValidSessionTypeStr ty then (.error "Invalid session type", store)
    else
      let s : Session := { id := newId, name := trimString name, type := ty,
                           createdAt := now, updatedAt := now }
      (.ok s, store ++ [s])

/-- C5: whenever the name is empty after trimming, or its trimmed length
exceeds 100 characters, or the type is outside the known enumeration,
`createSession` rejects with a validation error and the stored sessions are
unchanged. -/
theorem createSession_rejects_invalid (store : List Session) (name ty newId : String)
    (now : Nat)
    (h : (trimString name).length = 0 ∨ (trimString name).length > 100 ∨
         isValidSessionTypeStr ty = false) :
    (∃ msg, (createSession store name ty newId now).1 = .error msg) ∧
    (createSession store name ty newId now).2 = store := by
  by_cases h0 : (trimString name).length = 0
  · constructor
    · exact ⟨"Session name cannot be empty", by simp [createSession, validateSessionName, h0]⟩
    · simp [createSession, validateSessionName, h0]
  · by_cases h1 : (trimString name).length > 100
    · constructor
      · exact ⟨"Session name must be 100 characters or less",
          by simp [createSession, validateSessionName, h0, h1]⟩
      · simp [createSession, validateSessionName, h0, h1]
    · have hty : isValidSessionTypeStr ty = false := by
        rcases h with h | h | h
        · exact absurd h h0
        · exact absurd h h1
        · exact h
      constructor
      · exact ⟨"Invalid session type",
          by simp [createSession, validateSessionName, h0, h1, hty]⟩
      · simp [createSession, validateSessionName, h0, h1, hty]

theorem createSession_rejects_invalid_witness :
    ((∃ msg, (createSession [] "   " "RPG" "id1" 5).1 = .error msg) ∧
      (createSession [] "   " "RPG" "id1" 5).2 = []) ∧
    ((∃ msg, (createSession [exSessionS1] "Fine name" "Wargame" "id2" 6).1 = .error msg) ∧
      (createSession [exSessionS1] "Fine name" "Wargame" "id2" 6).2 = [exSessionS1]) :=
  ⟨createSession_rejects_invalid [] "   " "RPG" "id1" 5 (Or.inl (by decide)),
   createSession_rejects_invalid [exSessionS1] "Fine name" "Wargame" "id2" 6
     (Or.inr (Or.inr (by decide)))⟩

/-! ## C7: atomicity with respect to failure

The composables issue each Dexie call as a separately awaited single-record
write and wrap no multi-record transaction around write sequences, so a
failure of a later write cannot roll back earlier committed writes.  The
fallible variants below make the success/failure of a primitive write
explicit. -/

/-- `createEvent` with an explicitly modelled storage failure at the final
`db.events.add` (`addOk = false`, e.g. quota exceeded): validation failures
reject before any write; the auto-close updates are separately awaited
single-record writes that have already committed when the `add` rejects, and
the source wraps the sequence in no transaction, so they stay committed.
Returns (operation result, resulting store state). -/
def createEventF (st : DBState) (sessionId tag description newId : String)
    (now : Nat) (addOk : Bool) : Except String Event × DBState :=
  if sessionId = "" then (.error "No active session", st)
  else if ¬ isValidEventTag tag then (.error "Invalid event tag", st)
  else match validateEventDescription description with
  | some msg => (.error msg, st)
  | none =>
    let openEvents := openEventsOf st.events sessionId
    let closed := openEvents.foldl (fun acc oe => updateEventEnd acc oe.id now) st.events
    let event : Event := { id := newId, sessionId := sessionId, tag := tag,
                           timestamp := now, endTimestamp := none,
                           description := trimString description }
    if addOk then (.ok event, { st with events := closed ++ [event] })
    else (.error "StorageError", { st with events := closed })

/-- `closeEvent` with a fallible single `db.events.update`: a rejected write
leaves the table unchanged (per-operation atomicity of the storage engine). -/
def closeEventF (st : DBState) (eventId : String) (now : Nat) (ok : Bool) :
    Except String Unit × DBState :=
  if ok then (.ok (), closeEvent st eventId now) else (.error "StorageError", st)

/-- `deleteEvent` with a fallible single `db.events.delete`. -/
def deleteEventF (st : DBState) (eventId : String) (ok : Bool) :
    Except String Unit × DBState :=
  if ok then (.ok (), deleteEvent st eventId) else (.error "StorageError", st)

/-- `deleteAllEvents` with a fallible single ranged delete. -/
def deleteAllEventsF (st : DBState) (sessionId : String) (ok : Bool) :
    Except String Unit × DBState :=
  if ok then (.ok (), deleteAllEvents st sessionId) else (.error "StorageError", st)

/-- C7 counterexample: a `createEvent` whose final insert rejects after the
auto-close step reports failure but leaves the store changed — the previously
open event has been closed and the new event was never inserted, so the
operation is not atomic with respect to failure. -/
theorem createEventF_failure_not_atomic :
    (createEventF exState1 "s1" "Roleplay" "" "e7" 20 false).1 = .error "StorageError" ∧
    ¬ (createEventF exState1 "s1" "Roleplay" "" "e7" 20 false).2 = exState1 := by decide

/-- C7 amended: an operation that fails before its first storage write (any
validation failure) leaves the store unchanged, and the single-write
operations (`closeEvent`, `deleteEvent`, `deleteAllEvents`) leave the store
unchanged when their one write rejects; but `createEvent`'s multi-write
sequence is not atomic — when the final insert rejects after the auto-close
updates committed, the resulting store is the pre-state with the target
session's open events closed, the partial write remaining visible. -/
theorem engine_failure_atomicity_amended :
    (∀ st sid tag desc newId now addOk,
        (sid = "" ∨ isValidEventTag tag = false ∨ ¬ validateEventDescription desc = none) →
          (∃ msg, (createEventF st sid tag desc newId now addOk).1 = .error msg) ∧
          (createEventF st sid tag desc newId now addOk).2 = st) ∧
    (∀ st eventId now,
        (closeEventF st eventId now false).1 = .error "StorageError" ∧
        (closeEventF st eventId now false).2 = st) ∧
    (∀ st eventId,
        (deleteEventF st eventId false).1 = .error "StorageError" ∧
        (deleteEventF st eventId false).2 = st) ∧
    (∀ st sid,
        (deleteAllEventsF st sid false).1 = .error "StorageError" ∧
        (deleteAllEventsF st sid false).2 = st) ∧
    (∀ st sid tag desc newId now,
        ¬ sid = "" → isValidEventTag tag = true → validateEventDescription desc = none →
          (createEventF st sid tag desc newId now false).1 = .error "StorageError" ∧
          (createEventF st sid tag desc newId now false).2
            = { st with events :=
                  st.events.map (closeIfMem ((openEventsOf st.events sid).map Event.id) now) }) := by
  refine ⟨?_, ?_, ?_, ?_, ?_⟩
  · intro st sid tag desc newId now addOk h
    by_cases hsid : sid = ""
    · exact ⟨⟨"No active session", by simp [createEventF, hsid]⟩,
        by simp [createEventF, hsid]⟩
    · by_cases htag : isValidEventTag tag = true
      · have hdesc : ¬ validateEventDescription desc = none := by
          rcases h with h | h | h
          · exact absurd h hsid
          · rw [h] at htag; cases htag
          · exact h
        obtain ⟨msg, hmsg⟩ : ∃ m, validateEventDescription desc = some m := by
          cases hv : validateEventDescription desc with
          | none => exact absurd hv hdesc
          | some m => exact ⟨m, rfl⟩
        exact ⟨⟨msg, by simp [createEventF, hsid, htag, hmsg]⟩,
          by simp [createEventF, hsid, htag, hmsg]⟩
      · have htag' : isValidEventTag tag = false := by
          cases hv : isValidEventTag tag
          · rfl
          · exact absurd hv htag
        exact ⟨⟨"Invalid event tag", by simp [createEventF, hsid, htag']⟩,
          by simp [createEventF, hsid, htag']⟩
  · intro st eventId now
    exact ⟨rfl, rfl⟩
  · intro st eventId
    exact ⟨rfl, rfl⟩
  · intro st sid
    exact ⟨rfl, rfl⟩
  · intro st sid tag desc newId now hsid htag hdesc
    constructor
    · simp [createEventF, hsid, htag, hdesc]
    · simp [createEventF, hsid, htag, hdesc, foldl_updateEventEnd_eq_map]

theorem engine_failure_atomicity_amended_witness :
    ((∃ msg, (createEventF exState1 "s1" "BadTag" "" "e8" 20 true).1 = .error msg) ∧
      (createEventF exState1 "s1" "BadTag" "" "e8" 20 true).2 = exState1) ∧
    ((closeEventF exState1 "e1" 30 false).1 = .error "StorageError" ∧
      (closeEventF exState1 "e1" 30 false).2 = exState1) :=
  ⟨engine_failure_atomicity_amended.1 exState1 "s1" "BadTag" "" "e8" 20 true
      (Or.inr (Or.inl (by decide))),
   engine_failure_atomicity_amended.2.1 exState1 "e1" 30⟩
